import Mathlib

/-!
# Verification of the storyboard document-assembly engine

Shallow embedding of the layout / attribute-resolution core of the
storyboard generator (`engine/pptx_engine.py`, `engine/docx_engine.py`,
`engine/rtl_helpers.py`) together with machine-checked statements of the
specification's claims about it.

Conventions:
* Python integers are `Int` (or `Nat` where the source can only produce
  non-negative values); Python floor division `//` is `Int.fdiv`.
* XML element trees are embedded as lists of tagged children; attribute
  maps as association lists or dedicated record fields.
* Filesystem interaction is embedded by passing the set of existing
  paths explicitly; fallible operations return `Except`/`Option`.
-/

namespace Storyboard

/-! ## Geometry/Spacing allocator (`pptx_engine.LectureBuilder._calculate_adaptive_spacing`)

The source (pptx_engine.py:2641-2676):

```python
if item_count <= 0:
    return min_item_height, 0
available = available_bottom - available_top
min_gap = Cm(0.2)  # = 72000 EMU
total_needed = item_count * min_item_height + max(item_count - 1, 0) * min_gap
if total_needed <= available:
    item_height = min_item_height
    remaining = available - (item_count * item_height)
    gap = remaining // max(item_count - 1, 1)
else:
    gap = min_gap
    total_gaps = gap * max(item_count - 1, 0)
    item_height = (available - total_gaps) // item_count
return item_height, gap
```
-/

/-- `Cm(0.2)` in EMU: `int(0.2 * 360000) = 72000`. -/
def MIN_GAP : Int := 72000

/-- Embedding of `_calculate_adaptive_spacing`.  Python `//` is floor
division, hence `Int.fdiv`. Returns `(item_height, gap)` in EMU. -/
def calculateAdaptiveSpacing (itemCount availableTop availableBottom minItemHeight : Int) :
    Int × Int :=
  if itemCount ≤ 0 then (minItemHeight, 0)
  else
    let available := availableBottom - availableTop
    let minGap := MIN_GAP
    let totalNeeded := itemCount * minItemHeight + (max (itemCount - 1) 0) * minGap
    if totalNeeded ≤ available then
      let itemHeight := minItemHeight
      let remaining := available - itemCount * itemHeight
      let gap := Int.fdiv remaining (max (itemCount - 1) 1)
      (itemHeight, gap)
    else
      let gap := minGap
      let totalGaps := gap * (max (itemCount - 1) 0)
      let itemHeight := Int.fdiv (available - totalGaps) itemCount
      (itemHeight, gap)

end Storyboard

namespace Storyboard

/-- **C1.** For `item_count ≥ 1`, with `available = available_bottom -
available_top` and `min_gap = 72000` EMU: if
`item_count*min_item_height + (item_count-1)*min_gap ≤ available` the
allocator returns `item_size = min_item_height` and
`gap = ⌊(available - item_count*min_item_height) / max(item_count-1, 1)⌋`;
otherwise it returns `gap = min_gap` and
`item_size = ⌊(available - (item_count-1)*min_gap) / item_count⌋`; and for
`item_count ≤ 0` it returns `(min_item_height, 0)`. -/
theorem adaptive_spacing_formula (n top bot minH : Int) :
    (n ≤ 0 → calculateAdaptiveSpacing n top bot minH = (minH, 0)) ∧
    (1 ≤ n →
      (n * minH + (n - 1) * 72000 ≤ bot - top →
        calculateAdaptiveSpacing n top bot minH =
          (minH, Int.fdiv (bot - top - n * minH) (max (n - 1) 1))) ∧
      (¬ (n * minH + (n - 1) * 72000 ≤ bot - top) →
        calculateAdaptiveSpacing n top bot minH =
          (Int.fdiv (bot - top - (n - 1) * 72000) n, 72000))) := by
  refine ⟨fun h0 => by simp [calculateAdaptiveSpacing, h0], fun h1 => ?_⟩
  have hn0 : ¬ n ≤ 0 := by omega
  have hmax : max (n - 1) 0 = n - 1 := by omega
  constructor
  · intro hfits
    simp only [calculateAdaptiveSpacing, if_neg hn0, hmax, MIN_GAP, if_pos hfits]
  · intro hover
    simp only [calculateAdaptiveSpacing, if_neg hn0, hmax, MIN_GAP, if_neg hover]
    rw [Int.mul_comm]

/-- Witness for `adaptive_spacing_formula` at concrete inputs exercising
all three cases. -/
theorem adaptive_spacing_formula_witness :
    calculateAdaptiveSpacing 0 0 100 7 = (7, 0) ∧
    calculateAdaptiveSpacing 2 0 300000 100000 = (100000, 100000) ∧
    calculateAdaptiveSpacing 2 0 100000 100000 = (14000, 72000) := by
  refine ⟨(adaptive_spacing_formula 0 0 100 7).1 (by decide), ?_, ?_⟩
  · have h := ((adaptive_spacing_formula 2 0 300000 100000).2 (by decide)).1 (by decide)
    rw [h]; decide
  · have h := ((adaptive_spacing_formula 2 0 100000 100000).2 (by decide)).2 (by decide)
    rw [h]; decide

/-- Floor division by a positive divisor never overshoots:
`(x.fdiv d) * d ≤ x` for `0 < d`. -/
theorem fdiv_mul_le_self (x d : Int) (hd : 0 < d) : (Int.fdiv x d) * d ≤ x := by
  rw [Int.fdiv_eq_ediv x (le_of_lt hd)]
  exact Int.ediv_mul_le x (ne_of_gt hd)

/-- **C2 counterexample.** The claim asserts the allocator never returns a
negative item size for any span; but with `item_count = 2`,
`available_top = 0`, `available_bottom = 71999`, `min_item_height = 72001`
the overflow branch computes `item_size = ⌊(71999 - 72000)/2⌋ = -1 < 0`. -/
theorem adaptive_spacing_negative_size :
    (calculateAdaptiveSpacing 2 0 71999 72001).1 < 0 := by decide

/-- **C2 (amended).** For `item_count ≥ 1`: if `min_item_height ≥ 0` and
the available span is at least `(item_count - 1) * min_gap`, the returned
item size is non-negative; and (unconditionally for `item_count ≥ 1`) the
total consumed span `item_size*item_count + gap*(item_count-1)` never
exceeds the available span. -/
theorem adaptive_spacing_bounds (n top bot minH : Int) (h1 : 1 ≤ n) :
    (0 ≤ minH → (n - 1) * MIN_GAP ≤ bot - top →
      0 ≤ (calculateAdaptiveSpacing n top bot minH).1) ∧
    (calculateAdaptiveSpacing n top bot minH).1 * n +
      (calculateAdaptiveSpacing n top bot minH).2 * (n - 1) ≤ bot - top := by
  have hn0 : ¬ n ≤ 0 := by omega
  have hmax : max (n - 1) 0 = n - 1 := by omega
  simp only [calculateAdaptiveSpacing, if_neg hn0, hmax, MIN_GAP]
  split
  · -- fits branch: item = minH, gap = (A - n*minH).fdiv (max (n-1) 1)
    rename_i hfits
    refine ⟨fun hm _ => hm, ?_⟩
    rcases eq_or_lt_of_le h1 with h1' | h2
    · -- n = 1: gap * 0 = 0 and minH ≤ A
      subst h1'
      dsimp only
      linarith
    · -- n ≥ 2: max (n-1) 1 = n-1 and fdiv bound applies
      have hd : max (n - 1) 1 = n - 1 := by omega
      rw [hd]
      dsimp only
      have hb := fdiv_mul_le_self (bot - top - n * minH) (n - 1) (by omega)
      linarith
  · -- overflow branch: gap = 72000, item = (A - 72000*(n-1)).fdiv n
    rename_i hover
    constructor
    · intro _ hroom
      exact Int.fdiv_nonneg (by omega) (by omega)
    · dsimp only
      have hb := fdiv_mul_le_self (bot - top - 72000 * (n - 1)) n (by omega)
      linarith

/-- Witness for `adaptive_spacing_bounds` at `item_count = 2`,
span `0..300000`, `min_item_height = 100000`. -/
theorem adaptive_spacing_bounds_witness :
    (0 ≤ (100000:Int) → (2 - 1) * MIN_GAP ≤ 300000 - 0 →
      0 ≤ (calculateAdaptiveSpacing 2 0 300000 100000).1) ∧
    (calculateAdaptiveSpacing 2 0 300000 100000).1 * 2 +
      (calculateAdaptiveSpacing 2 0 300000 100000).2 * (2 - 1) ≤ 300000 - 0 :=
  adaptive_spacing_bounds 2 0 300000 100000 (by decide)

/-- **C10 counterexample.** The claim asserts `gap = 0` for a single item
that fits; but at `item_count = 1`, span `0..200000`,
`min_item_height = 100000` (which fits: `100000 ≤ 200000`) the allocator
returns `gap = 200000 - 100000 = 100000 ≠ 0`: the single-item gap is the
whole remainder, not zero. -/
theorem adaptive_spacing_single_item_gap_nonzero :
    (calculateAdaptiveSpacing 1 0 200000 100000).2 ≠ 0 := by decide

/-- **C10 (amended).** For `item_count = 1` with the item fitting in the
span (`min_item_height ≤ available`), the allocator returns
`item_size = min_item_height` and `gap = available - min_item_height`
(the whole remainder, which is harmless since a single item has no
inter-item gaps) — not `gap = 0`. -/
theorem adaptive_spacing_single_item (top bot minH : Int)
    (hfit : minH ≤ bot - top) :
    calculateAdaptiveSpacing 1 top bot minH = (minH, bot - top - minH) := by
  have h := ((adaptive_spacing_formula 1 top bot minH).2 (by omega)).1 (by omega)
  simpa using h

/-- Witness for `adaptive_spacing_single_item` at span `0..200000`,
`min_item_height = 100000`. -/
theorem adaptive_spacing_single_item_witness :
    calculateAdaptiveSpacing 1 0 200000 100000 = (100000, 100000) :=
  adaptive_spacing_single_item 0 200000 100000 (by decide)

/-! ## Schema-ordered attribute insertion (`rtl_helpers.docx_set_paragraph_rtl`,
`docx_engine._add_rtl_run`)

The WordprocessingML schema (ECMA-376 `CT_PPr`) mandates a fixed sequence
of children inside `<w:pPr>`.  `docx_set_paragraph_rtl` inserts a
`<w:bidi/>` element using python-docx's `insert_element_before`, passing
the exact list of tags that follow `w:bidi` in the schema; python-docx's
`insert_element_before` scans that successor list in order and inserts
the new element before the first successor found among the existing
children (appending at the end when none is present).

We embed a properties element as the list of its children's tags, in
document order. -/

/-- The possible children of `<w:pPr>`, one constructor per tag. -/
inductive PTag where
  | pStyle | keepNext | keepLines | pageBreakBefore | framePr | widowControl
  | numPr | suppressLineNumbers | pBdr | shd | tabs | suppressAutoHyphens
  | kinsoku | wordWrap | overflowPunct | topLinePunct | autoSpaceDE
  | autoSpaceDN | bidi | adjustRightInd | snapToGrid | spacing | ind
  | contextualSpacing | mirrorIndents | suppressOverlap | jc | textDirection
  | textAlignment | textboxTightWrap | outlineLvl | divId | cnfStyle
  | rPr | sectPr | pPrChange
  deriving DecidableEq, Fintype, Repr

/-- Position of each `<w:pPr>` child tag in the sequence mandated by the
external schema (ECMA-376 §17.3.1.26 `CT_PPr`). -/
def pIdx : PTag → Nat
  | .pStyle => 0 | .keepNext => 1 | .keepLines => 2 | .pageBreakBefore => 3
  | .framePr => 4 | .widowControl => 5 | .numPr => 6
  | .suppressLineNumbers => 7 | .pBdr => 8 | .shd => 9 | .tabs => 10
  | .suppressAutoHyphens => 11 | .kinsoku => 12 | .wordWrap => 13
  | .overflowPunct => 14 | .topLinePunct => 15 | .autoSpaceDE => 16
  | .autoSpaceDN => 17 | .bidi => 18 | .adjustRightInd => 19
  | .snapToGrid => 20 | .spacing => 21 | .ind => 22
  | .contextualSpacing => 23 | .mirrorIndents => 24 | .suppressOverlap => 25
  | .jc => 26 | .textDirection => 27 | .textAlignment => 28
  | .textboxTightWrap => 29 | .outlineLvl => 30 | .divId => 31
  | .cnfStyle => 32 | .rPr => 33 | .sectPr => 34 | .pPrChange => 35

/-- A `<w:pPr>` child list is schema-ordered when its tags appear in
non-decreasing schema position. -/
def POrdered (l : List PTag) : Prop :=
  List.Pairwise (fun a b => pIdx a ≤ pIdx b) l

instance (l : List PTag) : Decidable (POrdered l) := by
  unfold POrdered; infer_instance

/-- python-docx `first_child_found_in`: scan the tag names in the given
order and return the first one that occurs among the children. -/
def firstChildFoundIn (children : List PTag) : List PTag → Option PTag
  | [] => none
  | t :: rest =>
      if t ∈ children then some t else firstChildFoundIn children rest

/-- lxml `addprevious` of `elem` relative to the first occurrence of
`target` among `children` (only called when `target` occurs). -/
def insertBeforeTag (children : List PTag) (elem target : PTag) : List PTag :=
  match children with
  | [] => [elem]
  | c :: rest =>
      if c = target then elem :: c :: rest
      else c :: insertBeforeTag rest elem target

/-- python-docx `insert_element_before`: insert before the first successor
found among the children, else append at the end. -/
def insertElementBefore (children : List PTag) (elem : PTag)
    (successors : List PTag) : List PTag :=
  match firstChildFoundIn children successors with
  | some t => insertBeforeTag children elem t
  | none => children ++ [elem]

/-- The successor list hard-coded in `docx_set_paragraph_rtl`
(rtl_helpers.py:149-170), verbatim and in source order. -/
def bidiSuccessors : List PTag :=
  [.adjustRightInd, .snapToGrid, .spacing, .ind, .contextualSpacing,
   .mirrorIndents, .suppressOverlap, .jc, .textDirection, .textAlignment,
   .textboxTightWrap, .outlineLvl, .divId, .cnfStyle, .rPr, .sectPr,
   .pPrChange]

/-- Embedding of `docx_set_paragraph_rtl` on the `<w:pPr>` child list:
insert a fresh `<w:bidi/>` before the first listed successor. -/
def docxSetParagraphRtl (pPr : List PTag) : List PTag :=
  insertElementBefore pPr .bidi bidiSuccessors

/-- Distinct `<w:pPr>` tags occupy distinct schema positions. -/
theorem pIdx_injective : ∀ a b : PTag, pIdx a = pIdx b → a = b := by decide

/-- Members of the inserted list are the new element or old members. -/
theorem mem_insertBeforeTag {l : List PTag} {e t y : PTag}
    (h : y ∈ insertBeforeTag l e t) : y = e ∨ y ∈ l := by
  induction l with
  | nil => simpa [insertBeforeTag] using h
  | cons a rest ih =>
    by_cases hat : a = t
    · simp only [insertBeforeTag, if_pos hat, List.mem_cons] at h
      rcases h with h | h | h
      · exact Or.inl h
      · exact Or.inr (by simp [h])
      · exact Or.inr (List.mem_cons_of_mem _ h)
    · simp only [insertBeforeTag, if_neg hat, List.mem_cons] at h
      rcases h with h | h
      · exact Or.inr (by simp [h])
      · rcases ih h with h' | h'
        · exact Or.inl h'
        · exact Or.inr (List.mem_cons_of_mem _ h')

/-- The inserted element is a member of the result. -/
theorem elem_mem_insertBeforeTag (l : List PTag) (e t : PTag) :
    e ∈ insertBeforeTag l e t := by
  induction l with
  | nil => simp [insertBeforeTag]
  | cons a rest ih =>
    by_cases hat : a = t
    · simp [insertBeforeTag, if_pos hat]
    · simp only [insertBeforeTag, if_neg hat, List.mem_cons]
      exact Or.inr ih

/-- `first_child_found_in` returns a tag from the scanned list that is
present among the children, and — when the scanned list is strictly
schema-ordered — one of minimal schema position among those present. -/
theorem firstChildFoundIn_min {succ : List PTag} (children : List PTag)
    {t : PTag} (hstrict : List.Pairwise (fun a b => pIdx a < pIdx b) succ)
    (h : firstChildFoundIn children succ = some t) :
    t ∈ succ ∧ t ∈ children ∧
      ∀ x ∈ succ, x ∈ children → pIdx t ≤ pIdx x := by
  induction succ with
  | nil => simp [firstChildFoundIn] at h
  | cons s rest ih =>
    rw [firstChildFoundIn] at h
    rcases List.pairwise_cons.mp hstrict with ⟨hhead, htail⟩
    by_cases hs : s ∈ children
    · rw [if_pos hs] at h
      obtain rfl : s = t := by injection h
      refine ⟨List.mem_cons_self _ _, hs, ?_⟩
      intro x hx _
      rcases List.mem_cons.mp hx with rfl | hx'
      · exact le_refl _
      · exact le_of_lt (hhead x hx')
    · rw [if_neg hs] at h
      obtain ⟨ht1, ht2, ht3⟩ := ih htail h
      refine ⟨List.mem_cons_of_mem _ ht1, ht2, ?_⟩
      intro x hx hxc
      rcases List.mem_cons.mp hx with rfl | hx'
      · exact absurd hxc hs
      · exact ht3 x hx' hxc

/-- Inserting `e` before the first occurrence of `t` keeps a child list
schema-ordered, provided `e` sorts below `t` and no child lies strictly
between `e` and `t` in the schema order. -/
theorem insertBeforeTag_sorted {l : List PTag} {e t : PTag}
    (hsort : POrdered l) (htl : t ∈ l) (het : pIdx e < pIdx t)
    (hside : ∀ x ∈ l, pIdx x ≤ pIdx e ∨ pIdx t ≤ pIdx x) :
    POrdered (insertBeforeTag l e t) := by
  induction l with
  | nil => simp [insertBeforeTag, POrdered]
  | cons a rest ih =>
    rcases List.pairwise_cons.mp hsort with ⟨hhead, htail⟩
    by_cases hat : a = t
    · subst hat
      simp only [insertBeforeTag, if_pos rfl]
      refine List.pairwise_cons.mpr ⟨?_, hsort⟩
      intro y hy
      rcases List.mem_cons.mp hy with rfl | hy'
      · exact le_of_lt het
      · exact le_trans (le_of_lt het) (hhead y hy')
    · have htrest : t ∈ rest := by
        rcases List.mem_cons.mp htl with rfl | h'
        · exact absurd rfl hat
        · exact h'
      have hae : pIdx a ≤ pIdx e := by
        rcases hside a (List.mem_cons_self _ _) with h' | h'
        · exact h'
        · have hat' : pIdx a ≤ pIdx t := hhead t htrest
          exact absurd (pIdx_injective a t (le_antisymm hat' h')) hat
      simp only [insertBeforeTag, if_neg hat]
      refine List.pairwise_cons.mpr ⟨?_, ?_⟩
      · intro y hy
        rcases mem_insertBeforeTag hy with rfl | hy'
        · exact hae
        · exact hhead y hy'
      · exact ih htail htrest fun x hx => hside x (List.mem_cons_of_mem _ hx)

/-- The successor list passed by `docx_set_paragraph_rtl` is strictly
schema-ordered and consists of exactly the tags that follow `w:bidi` in
the schema. -/
theorem bidiSuccessors_exact :
    List.Pairwise (fun a b => pIdx a < pIdx b) bidiSuccessors ∧
      ∀ x : PTag, x ∈ bidiSuccessors ↔ pIdx PTag.bidi < pIdx x := by decide

/-- When `first_child_found_in` finds nothing, no scanned tag occurs
among the children. -/
theorem firstChildFoundIn_none {succ : List PTag} (children : List PTag)
    (h : firstChildFoundIn children succ = none) :
    ∀ x ∈ succ, x ∉ children := by
  induction succ with
  | nil => intro x hx; simp at hx
  | cons s rest ih =>
    rw [firstChildFoundIn] at h
    by_cases hs : s ∈ children
    · rw [if_pos hs] at h; exact absurd h (by simp)
    · rw [if_neg hs] at h
      intro x hx
      rcases List.mem_cons.mp hx with rfl | hx'
      · exact hs
      · exact ih h x hx'

/-- `docx_set_paragraph_rtl` keeps a schema-ordered `<w:pPr>` child list
schema-ordered, and the `<w:bidi/>` element ends up in it. -/
theorem docxSetParagraphRtl_sorted {pPr : List PTag} (h : POrdered pPr) :
    POrdered (docxSetParagraphRtl pPr) ∧ PTag.bidi ∈ docxSetParagraphRtl pPr := by
  obtain ⟨hstrict, hchar⟩ := bidiSuccessors_exact
  unfold docxSetParagraphRtl insertElementBefore
  cases hfc : firstChildFoundIn pPr bidiSuccessors with
  | none =>
    have hbelow : ∀ x ∈ pPr, pIdx x ≤ pIdx PTag.bidi := by
      intro x hx
      by_contra hgt
      have hxs : x ∈ bidiSuccessors := (hchar x).mpr (by omega)
      exact firstChildFoundIn_none pPr hfc x hxs hx
    constructor
    · exact List.pairwise_append.mpr
        ⟨h, List.pairwise_singleton _ _,
         fun a ha b hb => by rw [List.mem_singleton.mp hb]; exact hbelow a ha⟩
    · simp
  | some t =>
    obtain ⟨hts, htc, hmin⟩ := firstChildFoundIn_min pPr hstrict hfc
    have het : pIdx PTag.bidi < pIdx t := (hchar t).mp hts
    have hside : ∀ x ∈ pPr, pIdx x ≤ pIdx PTag.bidi ∨ pIdx t ≤ pIdx x := by
      intro x hx
      by_cases hgt : pIdx PTag.bidi < pIdx x
      · exact Or.inr (hmin x ((hchar x).mpr hgt) hx)
      · exact Or.inl (by omega)
    exact ⟨insertBeforeTag_sorted h htc het hside,
           elem_mem_insertBeforeTag pPr PTag.bidi t⟩

/-- The possible children of a run's `<w:rPr>`, one constructor per tag,
in the sequence mandated by ECMA-376 `CT_RPr`. -/
inductive RTag where
  | rStyle | rFonts | b | bCs | i | iCs | caps | smallCaps | strike
  | dstrike | outline | shadow | emboss | imprint | noProof | snapToGrid
  | vanish | webHidden | color | spacing | w | kern | position | sz | szCs
  | highlight | u | effect | bdr | shd | fitText | vertAlign | rtl | cs
  | em | lang | eastAsianLayout | specVanish | oMath
  deriving DecidableEq, Fintype, Repr

/-- Position of each `<w:rPr>` child tag in the schema-mandated sequence. -/
def rIdx : RTag → Nat
  | .rStyle => 0 | .rFonts => 1 | .b => 2 | .bCs => 3 | .i => 4 | .iCs => 5
  | .caps => 6 | .smallCaps => 7 | .strike => 8 | .dstrike => 9
  | .outline => 10 | .shadow => 11 | .emboss => 12 | .imprint => 13
  | .noProof => 14 | .snapToGrid => 15 | .vanish => 16 | .webHidden => 17
  | .color => 18 | .spacing => 19 | .w => 20 | .kern => 21 | .position => 22
  | .sz => 23 | .szCs => 24 | .highlight => 25 | .u => 26 | .effect => 27
  | .bdr => 28 | .shd => 29 | .fitText => 30 | .vertAlign => 31 | .rtl => 32
  | .cs => 33 | .em => 34 | .lang => 35 | .eastAsianLayout => 36
  | .specVanish => 37 | .oMath => 38

/-- A `<w:rPr>` child list is schema-ordered when its tags appear in
non-decreasing schema position. -/
def ROrdered (l : List RTag) : Prop :=
  List.Pairwise (fun x y => rIdx x ≤ rIdx y) l

instance (l : List RTag) : Decidable (ROrdered l) := by
  unfold ROrdered; infer_instance

/-- The `<w:rPr>` children python-docx itself creates inside
`_add_rtl_run` before the explicit XML edits: `run.font.name` creates
`w:rFonts`, `run.bold` creates `w:b`, `run.font.size` creates `w:sz`,
`run.font.color.rgb` creates `w:color` — each placed at its schema slot
by python-docx's schema-aware oxml layer. -/
def pythonDocxRunProps : List RTag := [.rFonts, .b, .color, .sz]

/-- Embedding of the `<w:rPr>` child-list edits performed by
`_add_rtl_run` (docx_engine.py:444-508) after the python-docx property
setters ran: append `w:rFonts` only when absent (then set its `w:cs`,
`w:ascii`, `w:hAnsi` attributes, which does not move it); when a font
size was requested, append `w:szCs` only when absent; finally
`docx_set_run_rtl` appends `<w:rtl/>`. -/
def addRtlRunRPr (rPr : List RTag) (hasSize : Bool) : List RTag :=
  let s1 := if RTag.rFonts ∈ rPr then rPr else rPr ++ [RTag.rFonts]
  let s2 := if hasSize then
      (if RTag.szCs ∈ s1 then s1 else s1 ++ [RTag.szCs]) else s1
  s2 ++ [RTag.rtl]

/-- Appending an element that sorts at or above every present tag keeps a
`<w:rPr>` child list schema-ordered. -/
theorem rAppend_sorted {l : List RTag} {e : RTag} (h : ROrdered l)
    (he : ∀ x ∈ l, rIdx x ≤ rIdx e) : ROrdered (l ++ [e]) :=
  List.pairwise_append.mpr
    ⟨h, List.pairwise_singleton _ _,
     fun x hx y hy => by rw [List.mem_singleton.mp hy]; exact he x hx⟩

/-- Every run property python-docx pre-creates sorts strictly below
`w:szCs` and `w:rtl`, and `w:szCs` sorts strictly below `w:rtl`. -/
theorem pythonDocxRunProps_below :
    (∀ x ∈ pythonDocxRunProps, rIdx x < rIdx RTag.szCs ∧ rIdx x < rIdx RTag.rtl) ∧
      rIdx RTag.szCs < rIdx RTag.rtl ∧ RTag.szCs ∉ pythonDocxRunProps := by decide

/-- Embedding of `_set_paragraph_spacing` (docx_engine.py:375-398) on
the `<w:pPr>` child list: when no `w:spacing` child exists yet it is
created with `pPr.append(spacing)` — a plain append at the end, not a
schema-positioned insert. -/
def setParagraphSpacing (pPr : List PTag) : List PTag :=
  if PTag.spacing ∈ pPr then pPr else pPr ++ [PTag.spacing]

/-- The `<w:pPr>` child list `_write_cell` (docx_engine.py:512-566)
produces with its default arguments: `para.alignment = ...` has
python-docx create `w:jc`, `_set_paragraph_bidi` inserts `<w:bidi/>`
before it, then `_set_paragraph_spacing` appends `w:spacing` at the
end. -/
def writeCellPPr : List PTag :=
  setParagraphSpacing (docxSetParagraphRtl [PTag.jc])

/-- **C4 counterexample.** The claim asserts that *every* attribute
element the engine inserts into a parent properties element lands at its
schema-mandated position, so the serialized parts never contain an
out-of-order child.  But the `_write_cell` sequence — run for every
table cell — leaves `<w:pPr>` as `[w:bidi, w:jc, w:spacing]`: the
appended `w:spacing` (schema position 21) sits after `w:jc` (schema
position 26), an out-of-order child. -/
theorem write_cell_pPr_out_of_order :
    writeCellPPr = [PTag.bidi, PTag.jc, PTag.spacing] ∧
      ¬ POrdered writeCellPPr := by decide

/-- **C4 (amended).** The attribute insertions the claim names are
correctly placed: `docx_set_paragraph_rtl` puts `<w:bidi/>` into a
schema-ordered `<w:pPr>` keeping it schema-ordered (its successor list
is exactly the set of schema-later tags, so the element lands after all
predecessors and before all successors), and `_add_rtl_run` leaves a
schema-ordered `<w:rPr>` — whose children come from the python-docx
property setters it runs first, with `w:rFonts` present since a font
name is always assigned — schema-ordered after appending `w:szCs` and
`<w:rtl/>`.  (Other builder insertions, such as `_write_cell`'s
appended `w:spacing`, are *not* schema-positioned; see the
counterexample.) -/
theorem schema_child_ordering (pPr : List PTag) (rPr : List RTag)
    (hasSize : Bool) (hp : POrdered pPr) (hr : ROrdered rPr)
    (hrf : RTag.rFonts ∈ rPr)
    (hsub : ∀ x ∈ rPr, x ∈ pythonDocxRunProps) :
    (POrdered (docxSetParagraphRtl pPr) ∧
      PTag.bidi ∈ docxSetParagraphRtl pPr) ∧
    (ROrdered (addRtlRunRPr rPr hasSize) ∧
      RTag.rtl ∈ addRtlRunRPr rPr hasSize ∧
      (hasSize = true → RTag.szCs ∈ addRtlRunRPr rPr hasSize)) := by
  obtain ⟨hbelow, hszlt, hszout⟩ := pythonDocxRunProps_below
  refine ⟨docxSetParagraphRtl_sorted hp, ?_⟩
  have hsz : RTag.szCs ∉ rPr := fun hin => hszout (hsub _ hin)
  unfold addRtlRunRPr
  rw [if_pos hrf]
  cases hasSize with
  | false =>
    simp only [Bool.false_eq_true, if_false]
    refine ⟨?_, by simp, by simp⟩
    exact rAppend_sorted hr fun x hx => le_of_lt (hbelow x (hsub x hx)).2
  | true =>
    simp only [eq_self_iff_true, if_true, if_neg hsz]
    refine ⟨?_, by simp, fun _ => by simp⟩
    have h1 : ROrdered (rPr ++ [RTag.szCs]) :=
      rAppend_sorted hr fun x hx => le_of_lt (hbelow x (hsub x hx)).1
    refine rAppend_sorted h1 ?_
    intro x hx
    rcases List.mem_append.mp hx with hx' | hx'
    · exact le_of_lt (hbelow x (hsub x hx')).2
    · rw [List.mem_singleton.mp hx']; exact le_of_lt hszlt

/-- Witness for `schema_child_ordering`: a `<w:pPr>` already holding
`w:spacing` and `w:jc` (as `_write_cell` produces before setting bidi)
and the `<w:rPr>` state `[w:rFonts, w:b, w:color, w:sz]` produced by the
python-docx setters in `_add_rtl_run`, with a font size requested. -/
theorem schema_child_ordering_witness :
    (POrdered (docxSetParagraphRtl [PTag.spacing, PTag.jc]) ∧
      PTag.bidi ∈ docxSetParagraphRtl [PTag.spacing, PTag.jc]) ∧
    (ROrdered (addRtlRunRPr [RTag.rFonts, RTag.b, RTag.color, RTag.sz] true) ∧
      RTag.rtl ∈ addRtlRunRPr [RTag.rFonts, RTag.b, RTag.color, RTag.sz] true ∧
      (true = true →
        RTag.szCs ∈ addRtlRunRPr [RTag.rFonts, RTag.b, RTag.color, RTag.sz] true)) :=
  schema_child_ordering [PTag.spacing, PTag.jc]
    [RTag.rFonts, RTag.b, RTag.color, RTag.sz] true
    (by decide) (by decide) (by decide) (by decide)

/-! ## Direction / complex-script font coupling
(`pptx_engine.LectureBuilder._add_arabic_textbox`,
`rtl_helpers.pptx_set_run_font_arabic`, `docx_engine._add_rtl_run`)

We embed the attribute state the helpers produce: a PPTX run's `<a:rPr>`
font slots and language tag, a PPTX paragraph's `rtl` attribute, and a
DOCX run's `<w:rPr>` fields. -/

/-- Attribute state of a PPTX run's `<a:rPr>`. -/
structure PptxRunProps where
  szPt : Option Int
  bold : Option Bool
  colorRgb : Option String
  csTypeface : Option String
  latinTypeface : Option String
  eaTypeface : Option String
  lang : Option String
  deriving DecidableEq, Repr

/-- A fresh run created by `paragraph.add_run()` carries no explicit
run properties. -/
def freshPptxRun : PptxRunProps :=
  ⟨none, none, none, none, none, none, none⟩

/-- Embedding of `pptx_set_run_font_arabic` (rtl_helpers.py:71-121):
find-or-create the `cs`, `latin` and `ea` font elements, set their
`typeface` to the requested font, and set the `lang` attribute. -/
def pptxSetRunFontArabic (r : PptxRunProps) (fontName lang : String) :
    PptxRunProps :=
  { r with csTypeface := some fontName, latinTypeface := some fontName,
           eaTypeface := some fontName, lang := some lang }

/-- Embedding of `LectureBuilder._set_run_font`: size, bold and color via
the python-pptx API, then delegate the font name and language to
`pptx_set_run_font_arabic` (default language `"ar-JO"`). -/
def setRunFont (r : PptxRunProps) (fontName : String) (sizePt : Int)
    (bold : Bool) (colorRgb : String) : PptxRunProps :=
  pptxSetRunFontArabic
    { r with szPt := some sizePt, bold := some bold,
             colorRgb := some colorRgb }
    fontName "ar-JO"

/-- A PPTX paragraph: its `<a:pPr>` `rtl` attribute and its runs
(text paired with run properties). -/
structure PptxParagraph where
  rtlAttr : Option String
  runs : List (String × PptxRunProps)
  deriving DecidableEq, Repr

/-- Embedding of `pptx_set_paragraph_rtl`: `pPr.set('rtl', '1')`. -/
def pptxSetParagraphRtl (p : PptxParagraph) : PptxParagraph :=
  { p with rtlAttr := some "1" }

/-- A PPTX textbox as `_add_arabic_textbox` produces it: optional shape
name and the single default paragraph it fills. -/
structure PptxTextbox where
  shapeName : Option String
  para : PptxParagraph
  deriving DecidableEq, Repr

/-- Embedding of `_add_arabic_textbox` (pptx_engine.py:2834-2912),
restricted to the text/direction/font state: take the default paragraph,
add one run holding the text, apply `_set_run_font`, then `_set_rtl`
(which delegates to `pptx_set_paragraph_rtl`). -/
def addArabicTextbox (text fontName : String) (sizePt : Int) (bold : Bool)
    (colorRgb : String) (shapeName : Option String) : PptxTextbox :=
  let p0 : PptxParagraph := { rtlAttr := none, runs := [] }
  let run := setRunFont freshPptxRun fontName sizePt bold colorRgb
  let p1 := { p0 with runs := p0.runs ++ [(text, run)] }
  { shapeName := shapeName, para := pptxSetParagraphRtl p1 }

/-- Attribute state of a DOCX run produced by `_add_rtl_run`. -/
structure DocxRunProps where
  rFontsCs : Option String
  rFontsAscii : Option String
  rFontsHAnsi : Option String
  szPt : Option Int
  szCsHalfPoints : Option Int
  bold : Bool
  colorRgb : Option String
  rtl : Bool
  deriving DecidableEq, Repr

/-- Embedding of `_add_rtl_run` (docx_engine.py:444-508) on the run's
attribute state: `run.font.name`/`bold`/`size`/`color`, then `w:rFonts`
with `w:cs`, `w:ascii`, `w:hAnsi` all set to the font name, `w:szCs` at
twice the point size when a size is given, and `<w:rtl/>` via
`docx_set_run_rtl`. -/
def addRtlRunProps (fontName : String) (fontSizePt : Option Int)
    (bold : Bool) (colorHex : Option String) : DocxRunProps :=
  { rFontsCs := some fontName, rFontsAscii := some fontName,
    rFontsHAnsi := some fontName, szPt := fontSizePt,
    szCsHalfPoints := fontSizePt.map (· * 2), bold := bold,
    colorRgb := colorHex, rtl := true }

/-- **C6.** Every run emitted through the Arabic text helpers carries the
RTL direction flag and the complex-script font assignment together: each
paragraph `_add_arabic_textbox` creates has `rtl="1"` and its run has the
requested typeface on the `cs`, `latin` and `ea` slots plus the `ar-JO`
language tag; each run `_add_rtl_run` creates has `<w:rtl/>` and
`w:rFonts w:cs` equal to the requested font. Neither flag is set without
the other. -/
theorem direction_and_cs_font_together (text fontName : String)
    (sizePt : Int) (bold : Bool) (colorRgb : String)
    (shapeName : Option String) (dFont : String) (dSize : Option Int)
    (dBold : Bool) (dColor : Option String) :
    ((addArabicTextbox text fontName sizePt bold colorRgb
        shapeName).para.rtlAttr = some "1" ∧
      ∀ r ∈ (addArabicTextbox text fontName sizePt bold colorRgb
          shapeName).para.runs,
        r.2.csTypeface = some fontName ∧
        r.2.latinTypeface = some fontName ∧
        r.2.eaTypeface = some fontName ∧
        r.2.lang = some "ar-JO") ∧
    ((addRtlRunProps dFont dSize dBold dColor).rtl = true ∧
      (addRtlRunProps dFont dSize dBold dColor).rFontsCs = some dFont) := by
  refine ⟨⟨rfl, ?_⟩, rfl, rfl⟩
  intro r hr
  simp only [addArabicTextbox, pptxSetParagraphRtl, List.nil_append,
    List.mem_singleton] at hr
  subst hr
  exact ⟨rfl, rfl, rfl, rfl⟩

/-! ## Table and cell widths (`docx_engine` table builders)

A table's width state: the `w:tblW` value on `w:tblPr`
(`_set_table_width`, last write wins), a log of per-cell `w:tcW`
assignments (`_set_cell_width`, last write to a grid position wins — the
helper overwrites an existing `w:tcW`), and the merges performed
(`_merge_cells_in_row`; the surviving cell is the one at the start
column, and merging does not touch any `w:tcW`). -/

structure DocxTable where
  tblW : Option Int
  tcW : List (Nat × Nat × Int)
  merges : List (Nat × Nat × Nat)
  deriving DecidableEq, Repr

def emptyDocxTable : DocxTable := ⟨none, [], []⟩

/-- `_set_table_width` (docx_engine.py:230-248). -/
def setTableWidth (t : DocxTable) (w : Int) : DocxTable :=
  { t with tblW := some w }

/-- `_set_cell_width` (docx_engine.py:162-178): create-or-overwrite the
cell's `w:tcW`; we log the assignment, the latest one being effective. -/
def setCellWidth (t : DocxTable) (r c : Nat) (w : Int) : DocxTable :=
  { t with tcW := t.tcW ++ [(r, c, w)] }

/-- `_merge_cells_in_row` (docx_engine.py:199-211). -/
def mergeCellsInRow (t : DocxTable) (r s e : Nat) : DocxTable :=
  { t with merges := t.merges ++ [(r, s, e)] }

/-- Effective declared width of the cell at grid position `(r, c)`:
the last `w:tcW` assignment to it. -/
def cellWidth (t : DocxTable) (r c : Nat) : Option Int :=
  (t.tcW.reverse.find? (fun x => x.1 = r ∧ x.2.1 = c)).map (·.2.2)

/-- Table-width constants (docx_engine.py:112-140). -/
def META_TABLE_WIDTH : Int := 13950
def META_COL0_WIDTH : Int := 4050
def META_COL1_WIDTH : Int := 9900
def GROUP_A_TABLE_WIDTH : Int := 14175
def GROUP_A_COL0_WIDTH : Int := 3015
def GROUP_A_COL1_WIDTH : Int := 11160
def GROUP_B_TABLE_WIDTH : Int := 13950
def GROUP_B_COL0_WIDTH : Int := 3330
def GROUP_B_COL1_WIDTH : Int := 10620
def TEST_INFO_TABLE_WIDTH : Int := 14175
def TEST_INFO_COL0_WIDTH : Int := 3018
def TEST_INFO_COL1_WIDTH : Int := 11157
def ACTIVITY_TABLE_WIDTH : Int := 13950
def ACTIVITY_COL0_WIDTH : Int := 4050
def ACTIVITY_COL1_WIDTH : Int := 9900
def VIDEO_TABLE_WIDTH : Int := 13960
def VIDEO_COL_WIDTHS : List Int := [3490, 3002, 4418, 3050]

/-- Width operations of `DocxBuilder.create_metadata_table`
(docx_engine.py:874-937): 7 rows; both data-column widths are assigned
on every row, row 0 is then merged and the surviving cell's width
re-asserted to the full table width. -/
def createMetadataTable : DocxTable :=
  (List.range 7).foldl
    (fun t r =>
      let t := setCellWidth t r 0 META_COL0_WIDTH
      let t := setCellWidth t r 1 META_COL1_WIDTH
      if r = 0 then
        setCellWidth (mergeCellsInRow t 0 0 1) 0 0 META_TABLE_WIDTH
      else t)
    (setTableWidth emptyDocxTable META_TABLE_WIDTH)

/-- Width operations of `_GroupABuilder.build_content`
(docx_engine.py:1068-1120): merged header row plus 4 data rows. -/
def groupABuildContent : DocxTable :=
  let t := setTableWidth emptyDocxTable GROUP_A_TABLE_WIDTH
  let t := mergeCellsInRow t 0 0 1
  let t := setCellWidth t 0 0 GROUP_A_TABLE_WIDTH
  (List.range 4).foldl
    (fun t i =>
      let t := setCellWidth t (i + 1) 0 GROUP_A_COL0_WIDTH
      setCellWidth t (i + 1) 1 GROUP_A_COL1_WIDTH) t

/-- Width operations of `_GroupBBuilder.build_content`
(docx_engine.py:1262-1305): merged header row plus 4 data rows. -/
def groupBBuildContent : DocxTable :=
  let t := setTableWidth emptyDocxTable GROUP_B_TABLE_WIDTH
  let t := mergeCellsInRow t 0 0 1
  let t := setCellWidth t 0 0 GROUP_B_TABLE_WIDTH
  (List.range 4).foldl
    (fun t i =>
      let t := setCellWidth t (i + 1) 0 GROUP_B_COL0_WIDTH
      setCellWidth t (i + 1) 1 GROUP_B_COL1_WIDTH) t

/-- Width operations of the test information table
(docx_engine.py:1480-1515): merged header row plus 2 data rows. -/
def buildTestInfoTable : DocxTable :=
  let t := setTableWidth emptyDocxTable TEST_INFO_TABLE_WIDTH
  let t := mergeCellsInRow t 0 0 1
  let t := setCellWidth t 0 0 TEST_INFO_TABLE_WIDTH
  (List.range 2).foldl
    (fun t i =>
      let t := setCellWidth t (i + 1) 0 TEST_INFO_COL0_WIDTH
      setCellWidth t (i + 1) 1 TEST_INFO_COL1_WIDTH) t

/-- Width operations of `ActivityBuilder._build_scene_table`
(docx_engine.py:1732-1800): merged title row, sub-header row, 8 data
rows. -/
def buildActivitySceneTable : DocxTable :=
  let t := setTableWidth emptyDocxTable ACTIVITY_TABLE_WIDTH
  let t := mergeCellsInRow t 0 0 1
  let t := setCellWidth t 0 0 ACTIVITY_TABLE_WIDTH
  let t := setCellWidth t 1 0 ACTIVITY_COL0_WIDTH
  let t := setCellWidth t 1 1 ACTIVITY_COL1_WIDTH
  (List.range 8).foldl
    (fun t i =>
      let t := setCellWidth t (i + 2) 0 ACTIVITY_COL0_WIDTH
      setCellWidth t (i + 2) 1 ACTIVITY_COL1_WIDTH) t

/-- One pass of the 4-column width loop of the video scene table. -/
def videoSceneRowWidths (t : DocxTable) (r : Nat) : DocxTable :=
  (List.range 4).foldl
    (fun t c => setCellWidth t r c (VIDEO_COL_WIDTHS.getD c 0)) t

/-- Width operations of `VideoBuilder._build_scene_table`
(docx_engine.py:2040-2140): title row merged across all 4 columns, two
label rows whose value side is merged across columns 1-3, the 4-column
sub-header row, and one 4-column data row per narration segment. -/
def buildVideoSceneTable (numSegments : Nat) : DocxTable :=
  let t := setTableWidth emptyDocxTable VIDEO_TABLE_WIDTH
  let t := mergeCellsInRow t 0 0 3
  let t := setCellWidth t 0 0 VIDEO_TABLE_WIDTH
  let t := setCellWidth t 1 0 (VIDEO_COL_WIDTHS.getD 0 0)
  let t := mergeCellsInRow t 1 1 3
  let t := setCellWidth t 2 0 (VIDEO_COL_WIDTHS.getD 0 0)
  let t := mergeCellsInRow t 2 1 3
  let t := videoSceneRowWidths t 3
  (List.range numSegments).foldl (fun t i => videoSceneRowWidths t (4 + i)) t

/-- The last width assigned to a grid position is the effective one. -/
theorem cellWidth_set_same (t : DocxTable) (r c : Nat) (w : Int) :
    cellWidth (setCellWidth t r c w) r c = some w := by
  simp [cellWidth, setCellWidth, List.reverse_append, List.find?]

/-- Assigning one grid position leaves every other position's effective
width unchanged. -/
theorem cellWidth_set_ne (t : DocxTable) {r c : Nat} (w : Int) {r' c' : Nat}
    (h : ¬(r' = r ∧ c' = c)) :
    cellWidth (setCellWidth t r c w) r' c' = cellWidth t r' c' := by
  have hfalse : ¬(r = r' ∧ c = c') := fun ⟨h1, h2⟩ => h ⟨h1.symm, h2.symm⟩
  simp [cellWidth, setCellWidth, List.reverse_append, List.find?,
    decide_eq_true_eq, hfalse]

/-- Merging records the merge and touches no `w:tcW`. -/
theorem cellWidth_merge (t : DocxTable) (a s e r c : Nat) :
    cellWidth (mergeCellsInRow t a s e) r c = cellWidth t r c := rfl

/-- A 4-column width pass assigns the template's column widths to its
row. -/
theorem videoSceneRowWidths_self (t : DocxTable) (r : Nat) :
    cellWidth (videoSceneRowWidths t r) r 0 = some 3490 ∧
    cellWidth (videoSceneRowWidths t r) r 1 = some 3002 ∧
    cellWidth (videoSceneRowWidths t r) r 2 = some 4418 ∧
    cellWidth (videoSceneRowWidths t r) r 3 = some 3050 := by
  have he : videoSceneRowWidths t r =
      setCellWidth (setCellWidth (setCellWidth
        (setCellWidth t r 0 3490) r 1 3002) r 2 4418) r 3 3050 := rfl
  rw [he]
  refine ⟨?_, ?_, ?_, ?_⟩
  · rw [cellWidth_set_ne _ _ (by omega), cellWidth_set_ne _ _ (by omega),
      cellWidth_set_ne _ _ (by omega), cellWidth_set_same]
  · rw [cellWidth_set_ne _ _ (by omega), cellWidth_set_ne _ _ (by omega),
      cellWidth_set_same]
  · rw [cellWidth_set_ne _ _ (by omega), cellWidth_set_same]
  · rw [cellWidth_set_same]

/-- A 4-column width pass leaves every other row unchanged. -/
theorem videoSceneRowWidths_other (t : DocxTable) {r r' : Nat} (c' : Nat)
    (h : r' ≠ r) :
    cellWidth (videoSceneRowWidths t r) r' c' = cellWidth t r' c' := by
  have he : videoSceneRowWidths t r =
      setCellWidth (setCellWidth (setCellWidth
        (setCellWidth t r 0 3490) r 1 3002) r 2 4418) r 3 3050 := rfl
  rw [he, cellWidth_set_ne _ _ (by tauto), cellWidth_set_ne _ _ (by tauto),
    cellWidth_set_ne _ _ (by tauto), cellWidth_set_ne _ _ (by tauto)]

/-- A 4-column width pass does not change the declared table width. -/
theorem videoSceneRowWidths_tblW (t : DocxTable) (r : Nat) :
    (videoSceneRowWidths t r).tblW = t.tblW := rfl

/-- Peeling one segment off the video scene table construction. -/
theorem buildVideoSceneTable_succ (n : Nat) :
    buildVideoSceneTable (n + 1) =
      videoSceneRowWidths (buildVideoSceneTable n) (4 + n) := by
  simp [buildVideoSceneTable, List.range_succ]

/-- The video scene table's declared, merged-title and per-column widths,
for every narration segment count. -/
theorem buildVideoSceneTable_props (n : Nat) :
    (buildVideoSceneTable n).tblW = some VIDEO_TABLE_WIDTH ∧
    cellWidth (buildVideoSceneTable n) 0 0 = some VIDEO_TABLE_WIDTH ∧
    (cellWidth (buildVideoSceneTable n) 3 0 = some 3490 ∧
     cellWidth (buildVideoSceneTable n) 3 1 = some 3002 ∧
     cellWidth (buildVideoSceneTable n) 3 2 = some 4418 ∧
     cellWidth (buildVideoSceneTable n) 3 3 = some 3050) ∧
    ∀ i, i < n →
      (cellWidth (buildVideoSceneTable n) (4 + i) 0 = some 3490 ∧
       cellWidth (buildVideoSceneTable n) (4 + i) 1 = some 3002 ∧
       cellWidth (buildVideoSceneTable n) (4 + i) 2 = some 4418 ∧
       cellWidth (buildVideoSceneTable n) (4 + i) 3 = some 3050) := by
  induction n with
  | zero =>
    exact ⟨by decide, by decide, by decide, fun i h => absurd h (by omega)⟩
  | succ n ih =>
    obtain ⟨h1, h2, h3, h4⟩ := ih
    rw [buildVideoSceneTable_succ]
    refine ⟨by rw [videoSceneRowWidths_tblW]; exact h1, ?_, ?_, ?_⟩
    · rw [videoSceneRowWidths_other _ _ (by omega)]; exact h2
    · rw [videoSceneRowWidths_other _ _ (by omega),
        videoSceneRowWidths_other _ _ (by omega),
        videoSceneRowWidths_other _ _ (by omega),
        videoSceneRowWidths_other _ _ (by omega)]
      exact h3
    · intro i hi
      by_cases hin : i = n
      · subst hin
        exact videoSceneRowWidths_self _ _
      · have hlt : i < n := by omega
        rw [videoSceneRowWidths_other _ _ (by omega),
          videoSceneRowWidths_other _ _ (by omega),
          videoSceneRowWidths_other _ _ (by omega),
          videoSceneRowWidths_other _ _ (by omega)]
        exact h4 i hlt

/-- **C5.** For every table built with a header cell merged across all
columns of its row — metadata, Group A and Group B content, test-info,
activity scene and video scene tables — the surviving cell's explicitly
declared width equals the table's declared width, which equals the sum
of the per-column cell widths declared on the data rows (e.g.
13950 = 4050 + 9900 for the metadata table). -/
theorem merged_header_width_agreement (nseg : Nat) :
    (createMetadataTable.tblW = some META_TABLE_WIDTH ∧
     cellWidth createMetadataTable 0 0 = some META_TABLE_WIDTH ∧
     (∀ r, r < 7 → 1 ≤ r →
       cellWidth createMetadataTable r 0 = some META_COL0_WIDTH ∧
       cellWidth createMetadataTable r 1 = some META_COL1_WIDTH) ∧
     META_COL0_WIDTH + META_COL1_WIDTH = META_TABLE_WIDTH) ∧
    (groupABuildContent.tblW = some GROUP_A_TABLE_WIDTH ∧
     cellWidth groupABuildContent 0 0 = some GROUP_A_TABLE_WIDTH ∧
     (∀ r, r < 5 → 1 ≤ r →
       cellWidth groupABuildContent r 0 = some GROUP_A_COL0_WIDTH ∧
       cellWidth groupABuildContent r 1 = some GROUP_A_COL1_WIDTH) ∧
     GROUP_A_COL0_WIDTH + GROUP_A_COL1_WIDTH = GROUP_A_TABLE_WIDTH) ∧
    (groupBBuildContent.tblW = some GROUP_B_TABLE_WIDTH ∧
     cellWidth groupBBuildContent 0 0 = some GROUP_B_TABLE_WIDTH ∧
     (∀ r, r < 5 → 1 ≤ r →
       cellWidth groupBBuildContent r 0 = some GROUP_B_COL0_WIDTH ∧
       cellWidth groupBBuildContent r 1 = some GROUP_B_COL1_WIDTH) ∧
     GROUP_B_COL0_WIDTH + GROUP_B_COL1_WIDTH = GROUP_B_TABLE_WIDTH) ∧
    (buildTestInfoTable.tblW = some TEST_INFO_TABLE_WIDTH ∧
     cellWidth buildTestInfoTable 0 0 = some TEST_INFO_TABLE_WIDTH ∧
     (∀ r, r < 3 → 1 ≤ r →
       cellWidth buildTestInfoTable r 0 = some TEST_INFO_COL0_WIDTH ∧
       cellWidth buildTestInfoTable r 1 = some TEST_INFO_COL1_WIDTH) ∧
     TEST_INFO_COL0_WIDTH + TEST_INFO_COL1_WIDTH = TEST_INFO_TABLE_WIDTH) ∧
    (buildActivitySceneTable.tblW = some ACTIVITY_TABLE_WIDTH ∧
     cellWidth buildActivitySceneTable 0 0 = some ACTIVITY_TABLE_WIDTH ∧
     (∀ r, r < 10 → 1 ≤ r →
       cellWidth buildActivitySceneTable r 0 = some ACTIVITY_COL0_WIDTH ∧
       cellWidth buildActivitySceneTable r 1 = some ACTIVITY_COL1_WIDTH) ∧
     ACTIVITY_COL0_WIDTH + ACTIVITY_COL1_WIDTH = ACTIVITY_TABLE_WIDTH) ∧
    ((buildVideoSceneTable nseg).tblW = some VIDEO_TABLE_WIDTH ∧
     cellWidth (buildVideoSceneTable nseg) 0 0 = some VIDEO_TABLE_WIDTH ∧
     (∀ i, i < nseg →
       cellWidth (buildVideoSceneTable nseg) (4 + i) 0 = some 3490 ∧
       cellWidth (buildVideoSceneTable nseg) (4 + i) 1 = some 3002 ∧
       cellWidth (buildVideoSceneTable nseg) (4 + i) 2 = some 4418 ∧
       cellWidth (buildVideoSceneTable nseg) (4 + i) 3 = some 3050) ∧
     (3490 + 3002 + 4418 + 3050 : Int) = VIDEO_TABLE_WIDTH) := by
  obtain ⟨h1, h2, _, h4⟩ := buildVideoSceneTable_props nseg
  exact ⟨by decide, by decide, by decide, by decide, by decide,
         h1, h2, h4, by decide⟩

/-- Witness for `merged_header_width_agreement`: a video scene table with
2 narration segments, checking its second data row. -/
theorem merged_header_width_agreement_witness :
    cellWidth (buildVideoSceneTable 2) (4 + 1) 0 = some 3490 ∧
    cellWidth (buildVideoSceneTable 2) (4 + 1) 1 = some 3002 ∧
    cellWidth (buildVideoSceneTable 2) (4 + 1) 2 = some 4418 ∧
    cellWidth (buildVideoSceneTable 2) (4 + 1) 3 = some 3050 :=
  (merged_header_width_agreement 2).2.2.2.2.2.2.2.1 1 (by decide)

/-! ## Missing-image degraded mode (`pptx_engine.LectureBuilder._add_image`,
`docx_engine.DocxBuilder._build_header`)

The filesystem is passed explicitly as the list of existing paths.
`_get_image_dimensions` opens the file under a catch-all `except` and
returns `None` on any failure; its aspect-ratio arithmetic runs in
floating point, so we treat its result as an oracle
`String → Option (Int × Int)`.  `_validate_bounds` only prints a console
warning and never raises.  Both embedded functions are total: no
exception escapes them. -/

/-- A picture shape as `slide.shapes.add_picture` returns it. -/
structure Pic where
  path : String
  left : Int
  top : Int
  width : Int
  height : Int
  shapeName : Option String
  deriving DecidableEq, Repr

/-- Embedding of `_add_image` (pptx_engine.py:3240-3304): guard against a
falsy or non-existing path, compute display dimensions (oracle), center
inside the bounding box with floor division, add the picture, name it. -/
def addImage (fs : List String) (dims : String → Option (Int × Int))
    (imagePath : String) (left top maxWidth maxHeight : Int)
    (shapeName : Option String) (centerInArea : Bool) : Option Pic :=
  if imagePath = "" ∨ imagePath ∉ fs then none
  else
    match dims imagePath with
    | none => none
    | some (displayW, displayH) =>
      let imgLeft := if centerInArea then
          left + Int.fdiv (maxWidth - displayW) 2 else left
      let imgTop := if centerInArea then
          top + Int.fdiv (maxHeight - displayH) 2 else top
      some ⟨imagePath, imgLeft, imgTop, displayW, displayH, shapeName⟩

/-- A logo picture in the page header (path and template EMU size). -/
structure HeaderPic where
  path : String
  width : Int
  height : Int
  deriving DecidableEq, Repr

/-- The header `_build_header` produces: whether the logo table was
added, and the two optional logo pictures. -/
structure HeaderState where
  hasTable : Bool
  leftPic : Option HeaderPic
  rightPic : Option HeaderPic
  deriving DecidableEq, Repr

/-- Embedding of `DocxBuilder._build_header` (docx_engine.py:703-757):
return early when neither logo path is set; otherwise build the 1x2
logo table and add each logo only when its path is set and the file
exists. -/
def buildHeader (fs : List String) (logoLeftPath logoRightPath : String) :
    HeaderState :=
  if logoLeftPath = "" ∧ logoRightPath = "" then ⟨false, none, none⟩
  else
    { hasTable := true
      leftPic :=
        if logoLeftPath ≠ "" ∧ logoLeftPath ∈ fs then
          some ⟨logoLeftPath, 1990090, 402590⟩
        else none
      rightPic :=
        if logoRightPath ≠ "" ∧ logoRightPath ∈ fs then
          some ⟨logoRightPath, 1073150, 832976⟩
        else none }

/-- **C7.** A referenced image file that cannot be located at build time
is silently omitted: `_add_image` returns `None` (the picture node is
dropped), `_build_header` skips the missing logo while still producing
the header table and the other logo; and neither function can raise —
both are total functions in the embedding, matching the source's
existence guard and catch-all dimension probe. -/
theorem missing_image_omitted (fs : List String)
    (dims : String → Option (Int × Int)) (imagePath : String)
    (left top maxWidth maxHeight : Int) (shapeName : Option String)
    (centerInArea : Bool) (logoL logoR : String)
    (himg : imagePath ∉ fs) (hlogo : logoL ∉ fs) :
    addImage fs dims imagePath left top maxWidth maxHeight shapeName
        centerInArea = none ∧
    (buildHeader fs logoL logoR).leftPic = none ∧
    (logoR ≠ "" → (buildHeader fs logoL logoR).hasTable = true) ∧
    (logoR ≠ "" → logoR ∈ fs →
      (buildHeader fs logoL logoR).rightPic =
        some ⟨logoR, 1073150, 832976⟩) := by
  refine ⟨?_, ?_, ?_, ?_⟩
  · simp [addImage, himg]
  · by_cases hboth : logoL = "" ∧ logoR = ""
    · simp [buildHeader, hboth]
    · simp only [buildHeader, if_neg hboth]
      have : ¬(logoL ≠ "" ∧ logoL ∈ fs) := fun ⟨_, hmem⟩ => hlogo hmem
      simp [this]
  · intro hR
    have hboth : ¬(logoL = "" ∧ logoR = "") := fun ⟨_, h2⟩ => hR h2
    simp [buildHeader, hboth]
  · intro hR hmem
    have hboth : ¬(logoL = "" ∧ logoR = "") := fun ⟨_, h2⟩ => hR h2
    simp [buildHeader, hboth, hR, hmem]

/-- Witness for `missing_image_omitted`: only `logo_right.png` exists on
disk; the slide image and the left logo are missing. -/
theorem missing_image_omitted_witness :
    addImage ["logo_right.png"] (fun _ => some (100, 100)) "missing.png"
        0 0 1000 1000 none true = none ∧
    (buildHeader ["logo_right.png"] "missing_left.png"
        "logo_right.png").leftPic = none ∧
    ("logo_right.png" ≠ "" →
      (buildHeader ["logo_right.png"] "missing_left.png"
          "logo_right.png").hasTable = true) ∧
    ("logo_right.png" ≠ "" → "logo_right.png" ∈ ["logo_right.png"] →
      (buildHeader ["logo_right.png"] "missing_left.png"
          "logo_right.png").rightPic =
        some ⟨"logo_right.png", 1073150, 832976⟩) :=
  missing_image_omitted ["logo_right.png"] (fun _ => some (100, 100))
    "missing.png" 0 0 1000 1000 none true "missing_left.png"
    "logo_right.png" (by decide) (by decide)

/-! ## Repeated border / shading overrides
(`rtl_helpers.docx_set_cell_borders`, `rtl_helpers.docx_set_cell_shading`)

Both helpers build a fresh element (`w:tcBorders` resp. `w:shd`) and
`append` it to the cell's `w:tcPr`; neither contains any logging or
warning call, so the diagnostics they emit are modelled as the (always
empty) second component. A consumer that honors the last matching child
sees the later call's value. -/

/-- One edge's border attributes (`sz`, `val`, `color`). -/
structure BorderSpec where
  sz : Nat
  val : String
  color : String
  deriving DecidableEq, Repr

/-- Children of `w:tcPr` relevant to the override helpers. -/
inductive TcPrChild where
  | shd (fill : String)
  | tcBorders (edges : List (String × BorderSpec))
  deriving DecidableEq, Repr

/-- The fixed edge iteration order in `docx_set_cell_borders`
(rtl_helpers.py:281). -/
def EDGE_ORDER : List String := ["top", "left", "bottom", "right", "start", "end"]

/-- The edge children a `docx_set_cell_borders` call produces: the
requested edges, in the helper's fixed iteration order. -/
def resolveEdges (kwargs : List (String × BorderSpec)) :
    List (String × BorderSpec) :=
  EDGE_ORDER.filterMap fun e =>
    (kwargs.find? (fun kv => kv.1 = e)).map fun kv => (e, kv.2)

/-- Embedding of `docx_set_cell_borders` (rtl_helpers.py:250-289):
append a fresh `w:tcBorders` holding the requested edges; returns the
updated `w:tcPr` children and the diagnostics emitted (none — the
source has no logging call). -/
def docxSetCellBorders (tcPr : List TcPrChild)
    (kwargs : List (String × BorderSpec)) : List TcPrChild × List String :=
  (tcPr ++ [.tcBorders (resolveEdges kwargs)], [])

/-- Embedding of `docx_set_cell_shading` (rtl_helpers.py:224-247):
append a fresh `w:shd` with the fill color; no diagnostics. -/
def docxSetCellShading (tcPr : List TcPrChild) (colorHex : String) :
    List TcPrChild × List String :=
  (tcPr ++ [.shd colorHex], [])

/-- The shading a last-matching-child consumer reads. -/
def lastShd (tcPr : List TcPrChild) : Option String :=
  tcPr.reverse.findSome? fun c =>
    match c with | .shd f => some f | _ => none

/-- The border set a last-matching-child consumer reads. -/
def lastTcBorders (tcPr : List TcPrChild) : Option (List (String × BorderSpec)) :=
  tcPr.reverse.findSome? fun c =>
    match c with | .tcBorders es => some es | _ => none

/-- **C8 counterexample.** The claim says a conflicting second border or
shading application emits a warning/diagnostic; but applying a 4-single
black top border and then an 18-single white top border to the same
cell, or teal then light-blue shading, emits no diagnostic at all — the
overwrite is silent. -/
theorem border_override_no_warning :
    (docxSetCellBorders
      (docxSetCellBorders [] [("top", ⟨4, "single", "000000"⟩)]).1
      [("top", ⟨18, "single", "FFFFFF"⟩)]).2 = ([] : List String) ∧
    (docxSetCellShading
      (docxSetCellShading [] "31849B").1 "DBE5F1").2 = ([] : List String) := by
  constructor <;> rfl

/-- **C8 (amended).** A second border or shading application to the same
cell appends its fresh element after the earlier one without removing
it and emits no warning; a consumer honoring the last matching child
reads the later value (last-write-wins in document order, silently). -/
theorem border_shading_last_write (tcPr : List TcPrChild)
    (kw1 kw2 : List (String × BorderSpec)) (c1 c2 : String) :
    ((docxSetCellShading tcPr c1).2 = [] ∧
     (docxSetCellShading (docxSetCellShading tcPr c1).1 c2).2 = [] ∧
     (docxSetCellShading (docxSetCellShading tcPr c1).1 c2).1 =
       tcPr ++ [.shd c1, .shd c2] ∧
     lastShd (docxSetCellShading (docxSetCellShading tcPr c1).1 c2).1 =
       some c2) ∧
    ((docxSetCellBorders tcPr kw1).2 = [] ∧
     (docxSetCellBorders (docxSetCellBorders tcPr kw1).1 kw2).2 = [] ∧
     (docxSetCellBorders (docxSetCellBorders tcPr kw1).1 kw2).1 =
       tcPr ++ [.tcBorders (resolveEdges kw1), .tcBorders (resolveEdges kw2)] ∧
     lastTcBorders (docxSetCellBorders (docxSetCellBorders tcPr kw1).1 kw2).1 =
       some (resolveEdges kw2)) := by
  refine ⟨⟨rfl, rfl, by simp [docxSetCellShading], ?_⟩,
          ⟨rfl, rfl, by simp [docxSetCellBorders], ?_⟩⟩
  · simp [docxSetCellShading, lastShd, List.reverse_append]
  · simp [docxSetCellBorders, lastTcBorders, List.reverse_append]

/-! ## Saving (`docx_engine.DocxBuilder.save`, `pptx_engine.LectureBuilder.save`)

`DocxBuilder.save` runs `os.makedirs(os.path.dirname(output_path),
exist_ok=True)` unconditionally; `LectureBuilder.save` guards the
`makedirs` call with `if output_dir:`.  We embed POSIX
`os.path.dirname` (the head of `os.path.split`, with trailing slashes
stripped unless the head is all slashes) and `os.makedirs(...,
exist_ok=True)` on a writable filesystem, where the only failure mode
exercised here is `os.makedirs("")`, which raises `FileNotFoundError`
even with `exist_ok=True`. -/

/-- POSIX `os.path.dirname`. -/
def dirname (p : String) : String :=
  let tail := p.data.reverse.dropWhile (fun ch => ch ≠ '/')
  if tail.isEmpty then ""
  else
    let head := tail.reverse
    if head.all (fun ch => ch = '/') then String.mk head
    else String.mk (tail.dropWhile (fun ch => ch = '/')).reverse

/-- `os.makedirs(d, exist_ok=True)` on a writable filesystem: fails
(`FileNotFoundError`) exactly on the empty path. -/
def makedirs (d : String) : Except String Unit :=
  if d = "" then .error "FileNotFoundError" else .ok ()

/-- Embedding of `DocxBuilder.save` (docx_engine.py:991-1001): always
`makedirs(dirname(output_path))`, then write; returns the written
path. -/
def docxSave (outputPath : String) : Except String String :=
  match makedirs (dirname outputPath) with
  | .error e => .error e
  | .ok _ => .ok outputPath

/-- Embedding of `LectureBuilder.save` (pptx_engine.py:2614-2635):
`makedirs` only when the dirname is non-empty, then write. -/
def pptxSave (filepath : String) : Except String String :=
  let outputDir := dirname filepath
  if outputDir = "" then .ok filepath
  else
    match makedirs outputDir with
    | .error e => .error e
    | .ok _ => .ok filepath

/-- **C9.** The claim says both engines save any caller-supplied path,
creating missing parents, including a bare filename.  The PPTX engine
does (it guards the `makedirs` call), and both succeed on paths with
directory components; but `DocxBuilder.save` on a bare filename calls
`os.makedirs("")`, which raises `FileNotFoundError` — the write never
happens. -/
theorem save_bare_filename_divergence :
    docxSave "file.docx" = .error "FileNotFoundError" ∧
    pptxSave "file.pptx" = .ok "file.pptx" ∧
    docxSave "output/NJR01/U02/file.docx" = .ok "output/NJR01/U02/file.docx" ∧
    pptxSave "output/NJR01/U02/file.pptx" = .ok "output/NJR01/U02/file.pptx" :=
  ⟨rfl, rfl, rfl, rfl⟩

/-! ## Cell merge rejection (Element Tree Model `merge_span`)

Modelled from the spec: the merge semantics that decide this claim live
in the external python-docx library (`_Cell.merge`), which is not among
this repository's sources — `_merge_cells_in_row`
(docx_engine.py:199-211) only delegates to it.  Per the spec (§4.2 and
§8): `merge_span` removes the absorbed sibling nodes and widens the
survivor; it fails if spans are already (partially) merged, and
"merging an already-merged region returns an error and leaves the tree
unchanged (no partial mutation)".

A table row is the list of its cells as `(start_column, column_span)`
pairs; a merge of columns `s..e` requires every column in the region to
be a separate unmerged cell, and replaces them by one spanning cell. -/

/-- Modelled from the spec: `merge_span` on one row.  Errors when the
region overlaps an existing merged cell (span ≠ 1) or is not an exact
cover by unmerged cells; on success the absorbed cells are removed and
the surviving cell spans the region.  The error carries no new row:
the input row is left unchanged. -/
def mergeSpan (row : List (Nat × Nat)) (s e : Nat) :
    Except String (List (Nat × Nat)) :=
  if row.any (fun c => c.1 ≤ e ∧ s ≤ c.1 + c.2 - 1 ∧ c.2 ≠ 1) then
    .error "already merged"
  else if s ≤ e ∧ (List.range (e + 1 - s)).all (fun i => (s + i, 1) ∈ row) then
    .ok (row.filter (fun c => c.1 < s ∨ e < c.1) ++ [(s, e + 1 - s)])
  else .error "not rectangular"

/-- **C3.** Merging a region that is already merged is reported to the
caller as an error — never silently accepted — and, the operation being
a pure function that returns no new row on error, the table is left
unchanged.  Concretely: after any successful merge of a multi-column
region, repeating the same merge yields the "already merged" error. -/
theorem merge_already_merged_rejected (row row' : List (Nat × Nat))
    (s e : Nat) (hok : mergeSpan row s e = .ok row') (hse : s < e) :
    mergeSpan row' s e = .error "already merged" := by
  unfold mergeSpan at hok
  split at hok
  · exact absurd hok (by simp)
  · split at hok
    · have hrow' : row' =
          row.filter (fun c => c.1 < s ∨ e < c.1) ++ [(s, e + 1 - s)] := by
        injection hok with h
        exact h.symm
      have hmem : (s, e + 1 - s) ∈ row' := by
        rw [hrow']
        exact List.mem_append_right _ (List.mem_singleton.mpr rfl)
      have hany : row'.any
          (fun c => c.1 ≤ e ∧ s ≤ c.1 + c.2 - 1 ∧ c.2 ≠ 1) = true := by
        refine List.any_eq_true.mpr ⟨(s, e + 1 - s), hmem, ?_⟩
        simp only [decide_eq_true_eq]
        refine ⟨by omega, by omega, by omega⟩
      unfold mergeSpan
      rw [if_pos hany]
    · exact absurd hok (by simp)

/-- Witness for `merge_already_merged_rejected`: merging columns 0-1 of
a two-cell row succeeds, and repeating the merge is rejected. -/
theorem merge_already_merged_rejected_witness :
    mergeSpan [(0, 2)] 0 1 = .error "already merged" :=
  merge_already_merged_rejected [(0, 1), (1, 1)] [(0, 2)] 0 1 rfl (by decide)

end Storyboard
